import Mathlib

/-!
Shallow embedding of `mne/viz/decoding.py` (functions `plot_gat_matrix` and
`plot_gat_diagonal`).

Modelling conventions:
* Python floats (times, scores) are modelled as exact rationals `ℚ`; the
  claims under study are structural (branching, indexing, min/max,
  nearest-neighbour selection), not about floating-point rounding.
* The `gat` argument is modelled by the structure `GAT`; a Python object
  lacking an attribute is modelled by the corresponding field being `none`.
* Each renderer is modelled as a function returning `Except VizError _`:
  `Except.error` corresponds to a Python exception raised before the plot is
  produced, `Except.ok` to the data the matplotlib calls would receive.
  The checks and attribute accesses are performed in the same order as in
  the Python source, so an `Except.error` result means the error is raised
  before any drawing call receives data.
* `plot_gat_matrix` is modelled up to the values handed to `ax.imshow`
  (`MatrixPlot` records `vmin`, `vmax`, the extent `tlim` and the image
  data).  `plot_gat_diagonal` is modelled up to the score vector handed to
  `ax.plot` (`DiagScores` records which branch computed it).
-/

/-- Python exceptions that the two renderers can raise before plotting:
`notComputed` is the `RuntimeError("Please score your data before trying to
plot scores")`, `attrError f` an `AttributeError` for a missing attribute
`f`, `indexError` an out-of-bounds list/array index, `valueError` the
`ValueError` numpy raises when reducing (`min`/`max`/`argmin`) an empty
array. -/
inductive VizError : Type where
  | notComputed : VizError
  | attrError : String → VizError
  | indexError : VizError
  | valueError : VizError
deriving DecidableEq

/-- The `gat.train_times` dictionary: the ordered training time points
(`times_`) and the uniform step between them (`step`). -/
structure TrainTimes : Type where
  times_ : List ℚ
  step : ℚ
deriving DecidableEq

/-- The slice of a `GeneralizationAcrossTime` object read by the two
renderers.  A `none` field models a Python object missing that attribute
(e.g. `scores_ = none` models `not hasattr(gat, 'scores_')`). -/
structure GAT : Type where
  scores_ : Option (List (List ℚ))
  train_times : Option TrainTimes
  test_times_ : Option (List (List ℚ))
deriving DecidableEq

/-- The data `plot_gat_matrix` hands to `ax.imshow`: colour bounds `vmin`
and `vmax`, the extent `tlim`, and the image (the scores matrix). -/
structure MatrixPlot : Type where
  vmin : ℚ
  vmax : ℚ
  tlim : List ℚ
  image : List (List ℚ)
deriving DecidableEq

/-- The score data `plot_gat_diagonal` hands to `ax.plot`, tagged with the
branch that produced it: `ident` is the single-testing-time branch
(`scores = gat.scores_`, unchanged), `ragged` the nearest-neighbour
reconstruction branch. -/
inductive DiagScores : Type where
  | ident : List (List ℚ) → DiagScores
  | ragged : List ℚ → DiagScores
deriving DecidableEq

/-- `np.min` of a (flattened) array: `ValueError` on an empty array. -/
def np_min (l : List ℚ) : Except VizError ℚ :=
  match l with
  | [] => .error .valueError
  | x :: xs => .ok (xs.foldl min x)

/-- `np.max` of a (flattened) array: `ValueError` on an empty array. -/
def np_max (l : List ℚ) : Except VizError ℚ :=
  match l with
  | [] => .error .valueError
  | x :: xs => .ok (xs.foldl max x)

/-- `np.abs`, elementwise absolute value. -/
def npAbs (x : ℚ) : ℚ := if x < 0 then -x else x

/-- Auxiliary scan for `np.abs(t - T).argmin()`: `best` is the best
`(index, value)` pair so far, `k` the index of the head of the remaining
list; a strictly smaller distance updates `best`, so ties keep the first
occurrence, exactly as `numpy.argmin` does. -/
def argminAbsAux (T : ℚ) : List ℚ → ℕ × ℚ → ℕ → ℕ × ℚ
  | [], best, _ => best
  | x :: rest, best, k =>
      if npAbs (x - T) < npAbs (best.2 - T) then argminAbsAux T rest (k, x) (k + 1)
      else argminAbsAux T rest best (k + 1)

/-- `j = np.abs(t - T).argmin()` together with the matched value `t[j]`:
returns `some (j, t[j])` for nonempty `t` and `none` for empty `t` (where
numpy raises a `ValueError`). -/
def argminAbs (T : ℚ) : List ℚ → Option (ℕ × ℚ)
  | [] => none
  | x :: rest => some (argminAbsAux T rest (0, x) 1)

/-- One iteration of the inner loop `for t in gat.test_times_['times_']` of
`plot_gat_diagonal`'s ragged branch, for training index `i`, training time
`T` and current cell state `cur` (`none` while the zero default has never
been overwritten): compute `j = np.abs(t - T).argmin()`, and if
`T - t[j] <= step` overwrite the cell with `gat.scores_[i][j]`. -/
def scanSeq (step : ℚ) (sc : List (List ℚ)) (i : ℕ) (T : ℚ)
    (cur : Option ℚ) (t : List ℚ) : Except VizError (Option ℚ) :=
  match argminAbs T t with
  | none => .error .valueError
  | some (j, tj) =>
      if T - tj ≤ step then
        match sc[i]? with
        | none => .error .indexError
        | some row =>
          match row[j]? with
          | none => .error .indexError
          | some v => .ok (some v)
      else .ok cur

/-- The full inner loop for one training time: fold `scanSeq` over all
testing-time sequences, starting from the untouched zero default
(`none`).  The result is the last accepted overwrite, if any. -/
def cellScore (step : ℚ) (sc tests : List (List ℚ)) (i : ℕ) (T : ℚ) :
    Except VizError (Option ℚ) :=
  tests.foldlM (scanSeq step sc i T) none

/-- The outer loop `for i, T in enumerate(gat.train_times['times_'])` of the
ragged branch, with `k` the index of the head of the remaining training
times and `scores` the mutable `np.zeros(len(gat.scores_))` array.  A cell
whose inner loop accepted no overwrite keeps its current (zero) value; an
accepted overwrite is written with `List.set` (the Python write
`scores[i] = gat.scores_[i][j]` can only be reached with
`i < len(gat.scores_) = len(scores)`, since `gat.scores_[i]` is read
first). -/
def diagLoopFrom (step : ℚ) (sc tests : List (List ℚ)) :
    ℕ → List ℚ → List ℚ → Except VizError (List ℚ)
  | _, [], scores => .ok scores
  | k, T :: rest, scores =>
      match cellScore step sc tests k T with
      | .error e => .error e
      | .ok none => diagLoopFrom step sc tests (k + 1) rest scores
      | .ok (some v) => diagLoopFrom step sc tests (k + 1) rest (scores.set k v)

/-- `plot_gat_diagonal`, modelled up to the score data handed to `ax.plot`,
with checks and attribute reads in source order: the `hasattr(gat,
'scores_')` guard first, then the branch test
`np.all(np.unique([len(t) for t in gat.test_times_['times_']]) == 1)`
(true iff every testing-time sequence has length 1, vacuously true for an
empty list, exactly as `np.all` of an empty array), then either the
identity branch (`scores = gat.scores_`) or the nearest-neighbour
reconstruction starting from `np.zeros(len(gat.scores_))`. -/
def plot_gat_diagonal_scores (g : GAT) : Except VizError DiagScores :=
  match g.scores_ with
  | none => .error .notComputed
  | some sc =>
    match g.test_times_ with
    | none => .error (.attrError "test_times_")
    | some tests =>
      if (tests.map List.length).all (fun k => k == 1) then
        .ok (.ident sc)
      else
        match g.train_times with
        | none => .error (.attrError "train_times")
        | some tt =>
          match diagLoopFrom tt.step sc tests 0 tt.times_
              (List.replicate sc.length 0) with
          | .error e => .error e
          | .ok s => .ok (.ragged s)

/-- The default extent of `plot_gat_matrix` when `tlim is None`:
`tt_times = gat.train_times['times_']`, `tn_times = gat.test_times_['times_']`,
`tlim = [tn_times[0][0], tn_times[-1][-1], tt_times[0], tt_times[-1]]`, with
the attribute reads and indexings in source order. -/
def default_tlim (g : GAT) : Except VizError (List ℚ) :=
  match g.train_times with
  | none => .error (.attrError "train_times")
  | some tt =>
    match g.test_times_ with
    | none => .error (.attrError "test_times_")
    | some tn =>
      match tn.head? with
      | none => .error .indexError
      | some t0 =>
        match t0.head? with
        | none => .error .indexError
        | some a =>
          match tn.getLast? with
          | none => .error .indexError
          | some tL =>
            match tL.getLast? with
            | none => .error .indexError
            | some b =>
              match tt.times_.head? with
              | none => .error .indexError
              | some c =>
                match tt.times_.getLast? with
                | none => .error .indexError
                | some d => .ok [a, b, c, d]

/-- `plot_gat_matrix`, modelled up to the data handed to `ax.imshow`, with
checks, defaults and attribute reads in source order: the scores guard,
then `vmin`/`vmax` defaulting to `np.min`/`np.max` of the score matrix,
then `tlim` defaulting to `default_tlim`. -/
def plot_gat_matrix (g : GAT) (vmin vmax : Option ℚ) (tlim : Option (List ℚ)) :
    Except VizError MatrixPlot :=
  match g.scores_ with
  | none => .error .notComputed
  | some sc =>
    match (match vmin with | some v => Except.ok v | none => np_min sc.flatten) with
    | .error e => .error e
    | .ok v1 =>
      match (match vmax with | some v => Except.ok v | none => np_max sc.flatten) with
      | .error e => .error e
      | .ok v2 =>
        match (match tlim with | some l => Except.ok l | none => default_tlim g) with
        | .error e => .error e
        | .ok tl => .ok ⟨v1, v2, tl, sc⟩

/-- A results object that was never scored (no `scores_` attribute). -/
def gatNoScores : GAT := ⟨none, none, none⟩

/-- Training time `T = 0` with step `1`; the only testing-time sequence is
`[10, 20]`, every element at distance `≥ 10` from `T`. -/
def gatFarFuture : GAT := ⟨some [[5, 6]], some ⟨[0], 1⟩, some [[10, 20]]⟩

/-- Training time `T = 0` with step `1`; the only testing-time sequence is
`[-10, -20]`, whose nearest element lies `10` steps before `T`. -/
def gatFarPast : GAT := ⟨some [[5, 6]], some ⟨[0], 1⟩, some [[-10, -20]]⟩

/-- Two testing-time sequences for `T = 0`: `[0, 1]` contains `T` itself,
and the later `[20, 10]` has nearest element `10`, far after `T`. -/
def gatTwoSeqs : GAT := ⟨some [[3, 4]], some ⟨[0], 1⟩, some [[0, 1], [20, 10]]⟩

/-- As `gatTwoSeqs` but with the two testing-time sequences swapped, so the
exactly-matching sequence `[0, 1]` is scanned last. -/
def gatTwoSeqsSwap : GAT := ⟨some [[3, 4]], some ⟨[0], 1⟩, some [[20, 10], [0, 1]]⟩

/-- Every testing-time sequence has exactly one element. -/
def gatDiagOnly : GAT := ⟨some [[1], [2]], some ⟨[0, 1], 1⟩, some [[0], [1]]⟩

/-- A square `2 × 2` integer-valued scores matrix. -/
def gatSquare : GAT := ⟨some [[6, 7], [5, 9]], some ⟨[0, 1], 1⟩, some [[0, 1], [0, 1]]⟩

/-- The concrete example of the spec: `scores = [[0.6, 0.7], [0.5, 0.9]]`,
training times `[0, 1]`, testing times `[[0, 1], [0, 1]]`. -/
def gatSpecExample : GAT :=
  ⟨some [[0.6, 0.7], [0.5, 0.9]], some ⟨[0, 1], 1⟩, some [[0, 1], [0, 1]]⟩

/-- Ragged testing times: the first sequence is `[0]`, the last `[1, 2, 3]`;
there is no single shared testing-time axis. -/
def gatRaggedAxis : GAT := ⟨some [[1, 2], [3, 4]], some ⟨[0, 1], 1⟩, some [[0], [1, 2, 3]]⟩

/-- Scores are present but both time-descriptor attributes are missing. -/
def gatOnlyScores : GAT := ⟨some [[1]], none, none⟩

/-- Score row `0` has length `1`, but the scanned testing-time sequence
`[5, 1]` has length `2` and its nearest-neighbour index for `T = 0` is `1`. -/
def gatShortRow : GAT := ⟨some [[7]], some ⟨[0], 1⟩, some [[5, 1]]⟩

/-! ### Basic lemmas about the embedded operations -/

/-- `npAbs` agrees with the lattice absolute value on `ℚ`. -/
lemma npAbs_eq_abs (x : ℚ) : npAbs x = |x| := by
  rw [npAbs]
  split
  · exact (abs_of_neg (by assumption)).symm
  · exact (abs_of_nonneg (not_lt.mp (by assumption))).symm

/-- The `argminAbsAux` scan returns a pair whose value is at least as close
to `T` as the initial best and as every scanned element. -/
lemma argminAbsAux_min (T : ℚ) (xs : List ℚ) :
    ∀ (b : ℕ × ℚ) (k : ℕ),
      |(argminAbsAux T xs b k).2 - T| ≤ |b.2 - T| ∧
      ∀ x ∈ xs, |(argminAbsAux T xs b k).2 - T| ≤ |x - T| := by
  induction xs with
  | nil => intro b k; simp [argminAbsAux]
  | cons x rest ih =>
    intro b k
    simp only [argminAbsAux, npAbs_eq_abs]
    by_cases h : |x - T| < |b.2 - T|
    · rw [if_pos h]
      obtain ⟨h1, h2⟩ := ih (k, x) (k + 1)
      refine ⟨le_trans h1 (le_of_lt h), ?_⟩
      intro y hy
      rcases List.mem_cons.mp hy with rfl | hy'
      · exact h1
      · exact h2 y hy'
    · rw [if_neg h]
      obtain ⟨h1, h2⟩ := ih b (k + 1)
      refine ⟨h1, ?_⟩
      intro y hy
      rcases List.mem_cons.mp hy with rfl | hy'
      · exact le_trans h1 (not_lt.mp h)
      · exact h2 y hy'

/-- The value matched by `np.abs(t - T).argmin()` minimises the absolute
difference to `T` over the whole sequence. -/
lemma argminAbs_min (T : ℚ) (t : List ℚ) (j : ℕ) (tj : ℚ)
    (h : argminAbs T t = some (j, tj)) : ∀ x ∈ t, |tj - T| ≤ |x - T| := by
  cases t with
  | nil => simp [argminAbs] at h
  | cons x rest =>
    simp only [argminAbs, Option.some.injEq] at h
    obtain ⟨h1, h2⟩ := argminAbsAux_min T rest (0, x) 1
    have e2 : (argminAbsAux T rest (0, x) 1).2 = tj := by rw [h]
    rw [e2] at h1 h2
    intro y hy
    rcases List.mem_cons.mp hy with rfl | hy'
    · exact h1
    · exact h2 y hy'

/-- If every scanned testing-time sequence is rejected by the tolerance test
(its nearest value `tj` has `step < T - tj`), the inner fold leaves the
cell state unchanged. -/
lemma foldlM_scanSeq_reject (step : ℚ) (sc : List (List ℚ)) (i : ℕ) (T : ℚ)
    (tests : List (List ℚ))
    (hrej : ∀ t ∈ tests, ∀ j tj, argminAbs T t = some (j, tj) → step < T - tj) :
    ∀ (cur r : Option ℚ),
      tests.foldlM (scanSeq step sc i T) cur = .ok r → r = cur := by
  induction tests with
  | nil =>
    intro cur r h
    rw [List.foldlM_nil] at h
    simpa [pure, Except.pure, eq_comm] using h
  | cons t rest ih =>
    intro cur r h
    rw [List.foldlM_cons] at h
    cases hs : scanSeq step sc i T cur t with
    | error e => rw [hs] at h; simp [bind, Except.bind] at h
    | ok cur1 =>
      rw [hs] at h
      simp only [bind, Except.bind] at h
      have hcur : cur1 = cur := by
        cases hm : argminAbs T t with
        | none => rw [scanSeq, hm] at hs; exact (Except.noConfusion hs)
        | some p =>
          obtain ⟨j, tj⟩ := p
          have hr := hrej t (List.mem_cons_self t rest) j tj hm
          simp only [scanSeq, hm, if_neg (not_le.mpr hr)] at hs
          simpa [eq_comm] using hs
      rw [← hcur]
      exact ih (fun t' ht' => hrej t' (List.mem_cons_of_mem t ht')) cur1 r h

/-- If the sequence `t` is accepted by the tolerance test and every later
sequence is rejected, the inner fold ends with the score read for `t`:
`gat.scores_[i]` at `t`'s nearest-neighbour index. -/
lemma cellScore_append_last (step : ℚ) (sc : List (List ℚ)) (i : ℕ) (T : ℚ)
    (pre post : List (List ℚ)) (t row : List ℚ) (j : ℕ) (tj v : ℚ) (r : Option ℚ)
    (hm : argminAbs T t = some (j, tj)) (hacc : T - tj ≤ step)
    (hrow : sc[i]? = some row) (hv : row[j]? = some v)
    (hrej : ∀ t' ∈ post, ∀ j' tj', argminAbs T t' = some (j', tj') → step < T - tj')
    (hok : cellScore step sc (pre ++ t :: post) i T = .ok r) :
    r = some v := by
  rw [cellScore, List.foldlM_append] at hok
  cases hp : List.foldlM (scanSeq step sc i T) none pre with
  | error e => rw [hp] at hok; simp [bind, Except.bind] at hok
  | ok cur0 =>
    rw [hp] at hok
    simp only [bind, Except.bind] at hok
    rw [List.foldlM_cons] at hok
    have hsc : scanSeq step sc i T cur0 t = .ok (some v) := by
      simp only [scanSeq, hm, if_pos hacc, hrow, hv]
    rw [hsc] at hok
    simp only [bind, Except.bind] at hok
    exact foldlM_scanSeq_reject step sc i T post hrej (some v) r hok

/-- The outer loop never changes entries below the current index `k`. -/
lemma diagLoopFrom_get_lt (step : ℚ) (sc tests : List (List ℚ)) :
    ∀ (ts : List ℚ) (k : ℕ) (scores res : List ℚ),
      diagLoopFrom step sc tests k ts scores = .ok res →
      ∀ i < k, res[i]? = scores[i]? := by
  intro ts
  induction ts with
  | nil =>
    intro k scores res h i hik
    rw [diagLoopFrom] at h
    cases h
    rfl
  | cons T rest ih =>
    intro k scores res h i hik
    rw [diagLoopFrom] at h
    cases hc : cellScore step sc tests k T with
    | error e => rw [hc] at h; exact (Except.noConfusion h)
    | ok o =>
      rw [hc] at h
      cases o with
      | none => exact ih (k + 1) scores res h i (Nat.lt_succ_of_lt hik)
      | some v =>
        rw [ih (k + 1) (scores.set k v) res h i (Nat.lt_succ_of_lt hik)]
        exact List.getElem?_set_ne (Nat.ne_of_gt hik)

/-- Characterisation of the outer loop: entry `k + i` of a successful run
is determined by the inner loop for training time `ts[i]`: left unchanged
if that inner loop accepted no overwrite, otherwise overwritten with the
last accepted score. -/
lemma diagLoopFrom_get (step : ℚ) (sc tests : List (List ℚ)) :
    ∀ (ts : List ℚ) (k : ℕ) (scores res : List ℚ),
      diagLoopFrom step sc tests k ts scores = .ok res →
      ∀ (i : ℕ) (T : ℚ), ts[i]? = some T →
      ∃ r, cellScore step sc tests (k + i) T = .ok r ∧
        res[k + i]? = (scores[k + i]?).map (fun z => r.getD z) := by
  intro ts
  induction ts with
  | nil => intro k scores res h i T hT; simp at hT
  | cons T0 rest ih =>
    intro k scores res h i T hT
    rw [diagLoopFrom] at h
    cases hc : cellScore step sc tests k T0 with
    | error e => rw [hc] at h; exact (Except.noConfusion h)
    | ok o =>
      rw [hc] at h
      cases i with
      | zero =>
        have hT0 : T0 = T := by simpa using hT
        subst hT0
        cases o with
        | none =>
          refine ⟨none, by simpa using hc, ?_⟩
          rw [Nat.add_zero,
            diagLoopFrom_get_lt step sc tests rest (k + 1) scores res h k (Nat.lt_succ_self k)]
          cases scores[k]? <;> simp
        | some v =>
          refine ⟨some v, by simpa using hc, ?_⟩
          rw [Nat.add_zero,
            diagLoopFrom_get_lt step sc tests rest (k + 1) (scores.set k v) res h k
              (Nat.lt_succ_self k),
            List.getElem?_set_self']
          cases scores[k]? <;> simp [Function.const]
      | succ n =>
        have hT' : rest[n]? = some T := by simpa using hT
        have hidx : k + (n + 1) = (k + 1) + n := by omega
        cases o with
        | none =>
          obtain ⟨r, hr1, hr2⟩ := ih (k + 1) scores res h n T hT'
          exact ⟨r, by rw [hidx]; exact hr1, by rw [hidx]; exact hr2⟩
        | some v =>
          obtain ⟨r, hr1, hr2⟩ := ih (k + 1) (scores.set k v) res h n T hT'
          refine ⟨r, by rw [hidx]; exact hr1, ?_⟩
          rw [hidx, hr2, List.getElem?_set_ne (by omega)]

/-- Inversion for the ragged branch of `plot_gat_diagonal`: an `.ok
(.ragged s)` result comes from the outer loop run on the training times,
starting from the zero array of length `len(gat.scores_)`. -/
lemma plot_gat_diagonal_ragged_inv (g : GAT) (tt : TrainTimes)
    (sc tests : List (List ℚ)) (s : List ℚ)
    (hs : g.scores_ = some sc) (hte : g.test_times_ = some tests)
    (htr : g.train_times = some tt)
    (hok : plot_gat_diagonal_scores g = .ok (.ragged s)) :
    diagLoopFrom tt.step sc tests 0 tt.times_ (List.replicate sc.length 0) = .ok s := by
  simp only [plot_gat_diagonal_scores, hs, hte, htr] at hok
  split at hok
  · simp at hok
  · split at hok
    · exact (Except.noConfusion hok)
    · rename_i s2 heq
      simp only [Except.ok.injEq, DiagScores.ragged.injEq] at hok
      rw [heq, hok]

/-- A left fold of `min` is bounded by its initial value. -/
lemma foldl_min_le_init (l : List ℚ) : ∀ a : ℚ, l.foldl min a ≤ a := by
  induction l with
  | nil => intro a; simp
  | cons y ys ih => intro a; exact le_trans (ih (min a y)) (min_le_left a y)

/-- A left fold of `min` is bounded by every element of the list. -/
lemma foldl_min_le_mem (l : List ℚ) : ∀ a : ℚ, ∀ x ∈ l, l.foldl min a ≤ x := by
  induction l with
  | nil => intro a x hx; simp at hx
  | cons y ys ih =>
    intro a x hx
    rcases List.mem_cons.mp hx with rfl | hx'
    · exact le_trans (foldl_min_le_init ys (min a x)) (min_le_right a x)
    · exact ih (min a y) x hx'

/-- A left fold of `min` is the initial value or an element of the list. -/
lemma foldl_min_mem (l : List ℚ) : ∀ a : ℚ, l.foldl min a = a ∨ l.foldl min a ∈ l := by
  induction l with
  | nil => intro a; left; rfl
  | cons y ys ih =>
    intro a
    simp only [List.foldl_cons]
    rcases ih (min a y) with h | h
    · rw [h]
      rcases le_total a y with hay | hya
      · left; exact min_eq_left hay
      · right; rw [min_eq_right hya]; exact List.mem_cons_self y ys
    · right; exact List.mem_cons_of_mem y h

/-- A left fold of `max` is bounded below by its initial value. -/
lemma foldl_max_ge_init (l : List ℚ) : ∀ a : ℚ, a ≤ l.foldl max a := by
  induction l with
  | nil => intro a; simp
  | cons y ys ih => intro a; exact le_trans (le_max_left a y) (ih (max a y))

/-- A left fold of `max` is bounded below by every element of the list. -/
lemma foldl_max_ge_mem (l : List ℚ) : ∀ a : ℚ, ∀ x ∈ l, x ≤ l.foldl max a := by
  induction l with
  | nil => intro a x hx; simp at hx
  | cons y ys ih =>
    intro a x hx
    rcases List.mem_cons.mp hx with rfl | hx'
    · exact le_trans (le_max_right a x) (foldl_max_ge_init ys (max a x))
    · exact ih (max a y) x hx'

/-- A left fold of `max` is the initial value or an element of the list. -/
lemma foldl_max_mem (l : List ℚ) : ∀ a : ℚ, l.foldl max a = a ∨ l.foldl max a ∈ l := by
  induction l with
  | nil => intro a; left; rfl
  | cons y ys ih =>
    intro a
    simp only [List.foldl_cons]
    rcases ih (max a y) with h | h
    · rw [h]
      rcases le_total a y with hay | hya
      · right; rw [max_eq_right hay]; exact List.mem_cons_self y ys
      · left; exact max_eq_left hya
    · right; exact List.mem_cons_of_mem y h

/-- A successful `np.min` returns an element of the list that bounds every
element from below. -/
lemma np_min_spec (l : List ℚ) (v : ℚ) (h : np_min l = .ok v) :
    v ∈ l ∧ ∀ x ∈ l, v ≤ x := by
  cases l with
  | nil => exact (Except.noConfusion h)
  | cons x xs =>
    have hv : xs.foldl min x = v := by
      rw [np_min] at h
      simpa using h
    subst hv
    constructor
    · rcases foldl_min_mem xs x with h' | h'
      · rw [h']; exact List.mem_cons_self x xs
      · exact List.mem_cons_of_mem x h'
    · intro y hy
      rcases List.mem_cons.mp hy with rfl | hy'
      · exact foldl_min_le_init xs y
      · exact foldl_min_le_mem xs x y hy'

/-- A successful `np.max` returns an element of the list that bounds every
element from above. -/
lemma np_max_spec (l : List ℚ) (v : ℚ) (h : np_max l = .ok v) :
    v ∈ l ∧ ∀ x ∈ l, x ≤ v := by
  cases l with
  | nil => exact (Except.noConfusion h)
  | cons x xs =>
    have hv : xs.foldl max x = v := by
      rw [np_max] at h
      simpa using h
    subst hv
    constructor
    · rcases foldl_max_mem xs x with h' | h'
      · rw [h']; exact List.mem_cons_self x xs
      · exact List.mem_cons_of_mem x h'
    · intro y hy
      rcases List.mem_cons.mp hy with rfl | hy'
      · exact foldl_max_ge_init xs y
      · exact foldl_max_ge_mem xs x y hy'

/-- Inversion for `plot_gat_matrix` with default colour bounds: a
successful run computed `vmin` by `np.min` and `vmax` by `np.max` of the
flattened score matrix. -/
lemma plot_gat_matrix_default_bounds (g : GAT) (sc : List (List ℚ))
    (tl : Option (List ℚ)) (p : MatrixPlot)
    (hs : g.scores_ = some sc)
    (hok : plot_gat_matrix g none none tl = .ok p) :
    np_min sc.flatten = .ok p.vmin ∧ np_max sc.flatten = .ok p.vmax := by
  simp only [plot_gat_matrix, hs] at hok
  cases h1 : np_min sc.flatten with
  | error e => rw [h1] at hok; exact (Except.noConfusion hok)
  | ok v1 =>
    rw [h1] at hok
    cases h2 : np_max sc.flatten with
    | error e => rw [h2] at hok; exact (Except.noConfusion hok)
    | ok v2 =>
      rw [h2] at hok
      cases h3 : (match tl with | some l => Except.ok l | none => default_tlim g) with
      | error e => rw [h3] at hok; exact (Except.noConfusion hok)
      | ok tlv =>
        rw [h3] at hok
        simp only [Except.ok.injEq] at hok
        rw [← hok]
        exact ⟨rfl, rfl⟩

/-! ### The claims -/

/-- C1: for every results object lacking a scores field, both renderers
fail with the "not computed" `RuntimeError`, and the error is raised by the
very first check, before any plotting data is produced. -/
theorem C1_missing_scores_error (g : GAT) (h : g.scores_ = none)
    (vmin vmax : Option ℚ) (tlim : Option (List ℚ)) :
    plot_gat_matrix g vmin vmax tlim = .error .notComputed ∧
    plot_gat_diagonal_scores g = .error .notComputed := by
  constructor
  · simp only [plot_gat_matrix, h]
  · simp only [plot_gat_diagonal_scores, h]

/-- C1 witness: the theorem applied to a concrete unscored object. -/
theorem C1_missing_scores_error_witness :
    plot_gat_matrix gatNoScores none none none = .error .notComputed ∧
    plot_gat_diagonal_scores gatNoScores = .error .notComputed :=
  C1_missing_scores_error gatNoScores rfl none none none

/-- C2 counterexample: the claim "the score is accepted only if the
absolute difference between `T` and the matched testing time is at most one
training-time step" is false.  With `T = 0`, `step = 1` and the single
testing-time sequence `[10, 20]`, the nearest match is `t[0] = 10`, at
absolute distance `10 > 1`, yet its score `scores_[0][0] = 5` is accepted
(the reported score is `5`, not the untouched default `0`). -/
theorem C2_counterexample :
    gatFarFuture.train_times = some ⟨[0], 1⟩ ∧
    argminAbs 0 [10, 20] = some (0, 10) ∧
    ¬(|(0:ℚ) - 10| ≤ 1) ∧
    plot_gat_diagonal_scores gatFarFuture = .ok (.ragged [5]) ∧
    (5:ℚ) ≠ 0 := by
  refine ⟨rfl, by norm_num [argminAbs, argminAbsAux, npAbs], by norm_num, ?_, by norm_num⟩
  norm_num [plot_gat_diagonal_scores, gatFarFuture, diagLoopFrom, cellScore, scanSeq,
    argminAbs, argminAbsAux, npAbs, bind, Except.bind, pure, Except.pure,
    List.replicate, List.set]

/-- C2 amended: in the ragged branch, for every training time `T` and
every scanned testing-time sequence `t`, the nearest testing time `t[j]`
is located by absolute difference, but the cell's score is accepted if and
only if the SIGNED difference `T - t[j]` does not exceed one training-time
step: a matched testing time later than `T` is accepted at any distance. -/
theorem C2_amended_signed_tolerance (step : ℚ) (sc : List (List ℚ)) (i : ℕ)
    (T : ℚ) (t : List ℚ) (cur : Option ℚ) (j : ℕ) (tj : ℚ)
    (hm : argminAbs T t = some (j, tj)) :
    (∀ x ∈ t, |tj - T| ≤ |x - T|) ∧
    (step < T - tj → scanSeq step sc i T cur t = .ok cur) ∧
    (T - tj ≤ step →
      scanSeq step sc i T cur t =
        match sc[i]? with
        | none => .error .indexError
        | some row =>
          match row[j]? with
          | none => .error .indexError
          | some v => .ok (some v)) := by
  refine ⟨argminAbs_min T t j tj hm, ?_, ?_⟩
  · intro h
    simp only [scanSeq, hm, if_neg (not_le.mpr h)]
  · intro h
    simp only [scanSeq, hm, if_pos h]

/-- C2 amended witness: the theorem applied at `T = 0`, `step = 1`,
`t = [10, 20]` (nearest `t[0] = 10`, later than `T`), score row `[3, 4]`. -/
theorem C2_amended_signed_tolerance_witness :
    (∀ x ∈ [(10:ℚ), 20], |(10:ℚ) - 0| ≤ |x - 0|) ∧
    ((1:ℚ) < 0 - 10 → scanSeq 1 [[3, 4]] 0 0 none [10, 20] = .ok none) ∧
    ((0:ℚ) - 10 ≤ 1 →
      scanSeq 1 [[3, 4]] 0 0 none [10, 20] =
        match ([[(3:ℚ), 4]])[0]? with
        | none => .error .indexError
        | some row =>
          match row[0]? with
          | none => .error .indexError
          | some v => .ok (some v)) :=
  C2_amended_signed_tolerance 1 [[3, 4]] 0 0 [10, 20] none 0 10
    (by norm_num [argminAbs, argminAbsAux, npAbs])

/-- C3 counterexample: the claim "if no testing time in any sequence lies
within one training-time step of `T`, the reported score is exactly 0" is
false.  With `T = 0`, `step = 1` and the single sequence `[10, 20]`, every
testing time is at absolute distance greater than `1` from `T`, yet the
reported score is `5 = scores_[0][0]`, not `0`: the signed tolerance test
`T - t[j] <= step` accepts the far-future match `10`. -/
theorem C3_counterexample :
    gatFarFuture.train_times = some ⟨[0], 1⟩ ∧
    (∀ x ∈ [(10:ℚ), 20], 1 < |x - 0|) ∧
    gatFarFuture.test_times_ = some [[10, 20]] ∧
    plot_gat_diagonal_scores gatFarFuture = .ok (.ragged [5]) ∧
    ¬ ([(5:ℚ)])[0]? = some 0 := by
  refine ⟨rfl, by norm_num, rfl, ?_, by norm_num⟩
  norm_num [plot_gat_diagonal_scores, gatFarFuture, diagLoopFrom, cellScore, scanSeq,
    argminAbs, argminAbsAux, npAbs, bind, Except.bind, pure, Except.pure,
    List.replicate, List.set]

/-- C3 amended: in the ragged branch, for a training time `T` at index `i`,
the zero-initialised default survives (the reported score is exactly `0`)
when every testing-time sequence's nearest time `t[j]` to `T` lies more
than one training-time step BEFORE `T` (`step < T - t[j]`); the original
absolute-distance condition is not enough, since a testing time later than
`T` is accepted at any distance by the signed test. -/
theorem C3_amended_zero_default (g : GAT) (tt : TrainTimes)
    (sc tests : List (List ℚ)) (s : List ℚ) (i : ℕ) (T : ℚ)
    (hs : g.scores_ = some sc) (htr : g.train_times = some tt)
    (hte : g.test_times_ = some tests)
    (hok : plot_gat_diagonal_scores g = .ok (.ragged s))
    (hT : tt.times_[i]? = some T) (hi : i < sc.length)
    (hrej : ∀ t ∈ tests, ∀ j tj, argminAbs T t = some (j, tj) → tt.step < T - tj) :
    s[i]? = some 0 := by
  have hinv := plot_gat_diagonal_ragged_inv g tt sc tests s hs hte htr hok
  obtain ⟨r, hr1, hr2⟩ := diagLoopFrom_get tt.step sc tests tt.times_ 0
    (List.replicate sc.length 0) s hinv i T hT
  rw [Nat.zero_add] at hr1 hr2
  have hrnone : r = none :=
    foldlM_scanSeq_reject tt.step sc i T tests hrej none r hr1
  subst hrnone
  rw [hr2, List.getElem?_replicate, if_pos hi]
  simp

/-- C3 amended witness: `T = 0`, `step = 1`, single sequence `[-10, -20]`
whose nearest time `-10` lies `10` steps before `T`; the reported score
vector is `[0]`. -/
theorem C3_amended_zero_default_witness : ([(0:ℚ)])[0]? = some 0 := by
  refine C3_amended_zero_default gatFarPast ⟨[0], 1⟩ [[5, 6]] [[-10, -20]] [0] 0 0
    rfl rfl rfl ?_ rfl (by norm_num) ?_
  · norm_num [plot_gat_diagonal_scores, gatFarPast, diagLoopFrom, cellScore, scanSeq,
      argminAbs, argminAbsAux, npAbs, bind, Except.bind, pure, Except.pure,
      List.replicate, List.set]
  · intro t ht j tj hm
    have ht' : t = [-10, -20] := by simpa using ht
    subst ht'
    rw [show argminAbs (0:ℚ) [-10, -20] = some (0, -10) from by
      norm_num [argminAbs, argminAbsAux, npAbs]] at hm
    simp only [Option.some.injEq, Prod.mk.injEq] at hm
    rw [← hm.2]
    norm_num

/-- C4 counterexample: the claim "for EVERY testing-time sequence containing
a value within one step of `T`, the reported score is row `i`'s entry at
the index of that sequence's closest value" is false.  With `T = 0`,
`step = 1`, sequences `[[0, 1], [20, 10]]` and score row `[3, 4]`: the
first sequence contains `0` (distance `0 ≤ 1`) with closest-value index
`0` and entry `3`, but the reported score is `4` — the later sequence
`[20, 10]` also passes the signed test and overwrites the cell. -/
theorem C4_counterexample :
    gatTwoSeqs.train_times = some ⟨[0], 1⟩ ∧
    gatTwoSeqs.test_times_ = some [[0, 1], [20, 10]] ∧
    (|(0:ℚ) - 0| ≤ 1) ∧
    argminAbs 0 [0, 1] = some (0, 0) ∧
    ([[(3:ℚ), 4]])[0]? = some [3, 4] ∧ ([(3:ℚ), 4])[0]? = some 3 ∧
    plot_gat_diagonal_scores gatTwoSeqs = .ok (.ragged [4]) ∧
    ¬ ([(4:ℚ)])[0]? = some 3 := by
  refine ⟨rfl, rfl, by norm_num, by norm_num [argminAbs, argminAbsAux, npAbs],
    rfl, rfl, ?_, by norm_num⟩
  norm_num [plot_gat_diagonal_scores, gatTwoSeqs, diagLoopFrom, cellScore, scanSeq,
    argminAbs, argminAbsAux, npAbs, bind, Except.bind, pure, Except.pure,
    List.replicate, List.set]

/-- C4 amended: in the ragged branch, the reported score for a training
time `T` at index `i` is row `i`'s entry at the nearest-neighbour index of
the LAST testing-time sequence accepted by the signed tolerance test
(`T - t[j] ≤ step`): if sequence `t` is accepted and every later sequence
is rejected, the reported score is `scores_[i]` at `t`'s closest-value
index. -/
theorem C4_amended_last_accepted (g : GAT) (tt : TrainTimes)
    (sc tests pre post : List (List ℚ)) (t row s : List ℚ)
    (i j : ℕ) (T tj v : ℚ)
    (hs : g.scores_ = some sc) (htr : g.train_times = some tt)
    (hte : g.test_times_ = some tests)
    (hok : plot_gat_diagonal_scores g = .ok (.ragged s))
    (hT : tt.times_[i]? = some T) (hi : i < sc.length)
    (hsplit : tests = pre ++ t :: post)
    (hm : argminAbs T t = some (j, tj)) (hacc : T - tj ≤ tt.step)
    (hrow : sc[i]? = some row) (hv : row[j]? = some v)
    (hrej : ∀ t' ∈ post, ∀ j' tj', argminAbs T t' = some (j', tj') → tt.step < T - tj') :
    s[i]? = some v := by
  have hinv := plot_gat_diagonal_ragged_inv g tt sc tests s hs hte htr hok
  obtain ⟨r, hr1, hr2⟩ := diagLoopFrom_get tt.step sc tests tt.times_ 0
    (List.replicate sc.length 0) s hinv i T hT
  rw [Nat.zero_add] at hr1 hr2
  subst hsplit
  have hrv : r = some v :=
    cellScore_append_last tt.step sc i T pre post t row j tj v r hm hacc hrow hv hrej hr1
  subst hrv
  rw [hr2, List.getElem?_replicate, if_pos hi]
  simp

/-- C4 amended witness: `T = 0`, `step = 1`, sequences `[[20, 10], [0, 1]]`
with the exactly-matching sequence `[0, 1]` scanned last; the reported
score is `3 = scores_[0][0]`. -/
theorem C4_amended_last_accepted_witness : ([(3:ℚ)])[0]? = some 3 := by
  refine C4_amended_last_accepted gatTwoSeqsSwap ⟨[0], 1⟩ [[3, 4]] [[20, 10], [0, 1]]
    [[20, 10]] [] [0, 1] [3, 4] [3] 0 0 0 0 3
    rfl rfl rfl ?_ rfl (by norm_num) rfl
    (by norm_num [argminAbs, argminAbsAux, npAbs]) (by norm_num) rfl rfl ?_
  · norm_num [plot_gat_diagonal_scores, gatTwoSeqsSwap, diagLoopFrom, cellScore, scanSeq,
      argminAbs, argminAbsAux, npAbs, bind, Except.bind, pure, Except.pure,
      List.replicate, List.set]
  · intro t' ht'
    simp at ht'

/-- C5: if every per-training-time testing-time sequence has exactly one
element, `plot_gat_diagonal` takes the identity branch: the plotted data
is `gat.scores_` unchanged, and the nearest-neighbour reconstruction is
never executed. -/
theorem C5_identity_path (g : GAT) (sc tests : List (List ℚ))
    (hs : g.scores_ = some sc) (hte : g.test_times_ = some tests)
    (h1 : ∀ t ∈ tests, t.length = 1) :
    plot_gat_diagonal_scores g = .ok (.ident sc) := by
  have hall : (tests.map List.length).all (fun k => k == 1) = true := by
    simp only [List.all_eq_true, List.mem_map]
    rintro k ⟨t, ht, rfl⟩
    simpa using h1 t ht
  simp [plot_gat_diagonal_scores, hs, hte, hall]

/-- C5 witness: a two-training-time object whose testing-time sequences
are `[[0], [1]]`, each of length one. -/
theorem C5_identity_path_witness :
    plot_gat_diagonal_scores gatDiagOnly = .ok (.ident [[1], [2]]) :=
  C5_identity_path gatDiagOnly [[1], [2]] [[0], [1]] rfl rfl (by simp)

/-- C6: for a square scores matrix, when `vmin` and `vmax` are not
supplied, `plot_gat_matrix`'s colour bounds are exactly the minimum and
maximum of the score matrix: each is an entry of the matrix, `vmin` bounds
every entry from below and `vmax` from above. -/
theorem C6_default_color_bounds (g : GAT) (sc : List (List ℚ)) (n : ℕ)
    (hs : g.scores_ = some sc) (hn : sc.length = n)
    (hsq : ∀ row ∈ sc, row.length = n) (hpos : 0 < n)
    (tl : Option (List ℚ)) (p : MatrixPlot)
    (hok : plot_gat_matrix g none none tl = .ok p) :
    p.vmin ∈ sc.flatten ∧ p.vmax ∈ sc.flatten ∧
    ∀ x ∈ sc.flatten, p.vmin ≤ x ∧ x ≤ p.vmax := by
  obtain ⟨h1, h2⟩ := plot_gat_matrix_default_bounds g sc tl p hs hok
  obtain ⟨hm1, hm2⟩ := np_min_spec _ _ h1
  obtain ⟨hx1, hx2⟩ := np_max_spec _ _ h2
  exact ⟨hm1, hx1, fun x hx => ⟨hm2 x hx, hx2 x hx⟩⟩

/-- C6 witness: the square matrix `[[6, 7], [5, 9]]`, whose default colour
bounds are `vmin = 5` and `vmax = 9`. -/
theorem C6_default_color_bounds_witness :
    (⟨5, 9, [0, 1, 0, 1], [[6, 7], [5, 9]]⟩ : MatrixPlot).vmin ∈
      ([[(6:ℚ), 7], [5, 9]]).flatten ∧
    (⟨5, 9, [0, 1, 0, 1], [[6, 7], [5, 9]]⟩ : MatrixPlot).vmax ∈
      ([[(6:ℚ), 7], [5, 9]]).flatten ∧
    ∀ x ∈ ([[(6:ℚ), 7], [5, 9]]).flatten,
      (⟨5, 9, [0, 1, 0, 1], [[6, 7], [5, 9]]⟩ : MatrixPlot).vmin ≤ x ∧
      x ≤ (⟨5, 9, [0, 1, 0, 1], [[6, 7], [5, 9]]⟩ : MatrixPlot).vmax :=
  C6_default_color_bounds gatSquare [[6, 7], [5, 9]] 2 rfl rfl (by simp)
    (by norm_num) (some [0, 1, 0, 1]) ⟨5, 9, [0, 1, 0, 1], [[6, 7], [5, 9]]⟩
    (by norm_num [plot_gat_matrix, gatSquare, np_min, np_max, min_def, max_def])

/-- C7: the spec's concrete example.  For `scores = [[0.6, 0.7], [0.5, 0.9]]`,
training times `[0, 1]` (step `1`) and testing times `[[0, 1], [0, 1]]`:
the matrix renderer's default colour bounds are `(0.5, 0.9)` (with default
extent `[0, 1, 0, 1]`), and the diagonal renderer takes the ragged branch
(not the identity branch) and reconstructs the score vector `[0.6, 0.9]`. -/
theorem C7_spec_example :
    plot_gat_matrix gatSpecExample none none none =
      .ok ⟨0.5, 0.9, [0, 1, 0, 1], [[0.6, 0.7], [0.5, 0.9]]⟩ ∧
    plot_gat_diagonal_scores gatSpecExample = .ok (.ragged [0.6, 0.9]) := by
  constructor
  · norm_num [plot_gat_matrix, default_tlim, gatSpecExample, np_min, np_max,
      min_def, max_def]
  · norm_num [plot_gat_diagonal_scores, gatSpecExample, diagLoopFrom, cellScore,
      scanSeq, argminAbs, argminAbsAux, npAbs, bind, Except.bind, pure, Except.pure,
      List.replicate, List.set]
    rfl

/-- C8: when `tlim` is not supplied, `plot_gat_matrix`'s extent defaults to
`[first testing time, last testing time, first training time, last training
time]`, where the first testing time is the first element of the FIRST
testing-time sequence and the last testing time is the last element of the
LAST testing-time sequence; no hypothesis relates the testing-time
sequences to each other, so no shared testing-time axis is enforced. -/
theorem C8_default_extent (g : GAT) (tt : TrainTimes) (sc tn : List (List ℚ))
    (t0 tL : List ℚ) (a b c d v1 v2 : ℚ)
    (hs : g.scores_ = some sc) (htr : g.train_times = some tt)
    (hte : g.test_times_ = some tn)
    (h1 : tn.head? = some t0) (h2 : t0.head? = some a)
    (h3 : tn.getLast? = some tL) (h4 : tL.getLast? = some b)
    (h5 : tt.times_.head? = some c) (h6 : tt.times_.getLast? = some d) :
    plot_gat_matrix g (some v1) (some v2) none = .ok ⟨v1, v2, [a, b, c, d], sc⟩ := by
  simp only [plot_gat_matrix, default_tlim, hs, htr, hte, h1, h2, h3, h4, h5, h6]

/-- C8 witness: ragged testing times `[[0], [1, 2, 3]]` (no shared axis),
training times `[0, 1]`: the default extent is `[0, 3, 0, 1]`. -/
theorem C8_default_extent_witness :
    plot_gat_matrix gatRaggedAxis (some 0) (some 1) none =
      .ok ⟨0, 1, [0, 3, 0, 1], [[1, 2], [3, 4]]⟩ :=
  C8_default_extent gatRaggedAxis ⟨[0, 1], 1⟩ [[1, 2], [3, 4]] [[0], [1, 2, 3]]
    [0] [1, 2, 3] 0 3 0 1 0 1 rfl rfl rfl rfl rfl rfl rfl rfl rfl

/-- C9 counterexample: the claim "a missing time-descriptor field with
scores present still yields the descriptive error before any drawing" is
false.  For an object with scores present but BOTH time descriptors
missing, calling the matrix renderer with an explicit `tlim` (and explicit
colour bounds) raises no error at all and produces the full plot data. -/
theorem C9_counterexample :
    gatOnlyScores.scores_ = some [[1]] ∧
    gatOnlyScores.train_times = none ∧
    gatOnlyScores.test_times_ = none ∧
    plot_gat_matrix gatOnlyScores (some 0) (some 1) (some [0, 1, 0, 1]) =
      .ok ⟨0, 1, [0, 1, 0, 1], [[1]]⟩ :=
  ⟨rfl, rfl, rfl, by norm_num [plot_gat_matrix, gatOnlyScores]⟩

/-- C9 amended: a missing scores field always raises the descriptive
`RuntimeError` (see C1); a missing time-descriptor field with scores
present raises an error only when the renderer actually reads that field:
the diagonal renderer always reads `test_times_` (so it fails), and the
matrix renderer reads the time descriptors only when `tlim` is not
supplied — with `tlim` supplied it completes without any error despite the
missing descriptors. -/
theorem C9_amended_lazy_descriptor_reads (g : GAT) (sc : List (List ℚ))
    (v1 v2 : ℚ) (hs : g.scores_ = some sc) :
    (g.test_times_ = none →
      plot_gat_diagonal_scores g = .error (.attrError "test_times_")) ∧
    (g.train_times = none →
      plot_gat_matrix g (some v1) (some v2) none = .error (.attrError "train_times")) ∧
    (∀ tl, plot_gat_matrix g (some v1) (some v2) (some tl) = .ok ⟨v1, v2, tl, sc⟩) := by
  refine ⟨?_, ?_, ?_⟩
  · intro hte
    simp only [plot_gat_diagonal_scores, hs, hte]
  · intro htr
    simp only [plot_gat_matrix, default_tlim, hs, htr]
  · intro tl
    simp only [plot_gat_matrix, hs]

/-- C9 amended witness: the theorem applied to the object with scores
`[[1]]` and no time descriptors. -/
theorem C9_amended_lazy_descriptor_reads_witness :
    (gatOnlyScores.test_times_ = none →
      plot_gat_diagonal_scores gatOnlyScores = .error (.attrError "test_times_")) ∧
    (gatOnlyScores.train_times = none →
      plot_gat_matrix gatOnlyScores (some 0) (some 1) none =
        .error (.attrError "train_times")) ∧
    (∀ tl, plot_gat_matrix gatOnlyScores (some 0) (some 1) (some tl) =
      .ok ⟨0, 1, tl, [[1]]⟩) :=
  C9_amended_lazy_descriptor_reads gatOnlyScores [[1]] 0 1 rfl

/-- C10: the column index `j` used to read score row `i` comes from
whichever testing-time sequence is currently scanned, and the read
`scores_[i][j]` is unguarded: for `gatShortRow` (scores present, row `0`
of length `1`, scanned sequence `[5, 1]` of length `2` whose accepted
nearest-neighbour index for `T = 0` is `1`), the read indexes out of
bounds and the renderer fails with an `IndexError`. -/
theorem C10_unguarded_row_read :
    gatShortRow.scores_ = some [[7]] ∧
    gatShortRow.test_times_ = some [[5, 1]] ∧
    argminAbs 0 [5, 1] = some (1, 1) ∧
    ((0:ℚ) - 1 ≤ 1) ∧
    ([[(7:ℚ)]])[0]? = some [7] ∧ ([(7:ℚ)]).length = 1 ∧
    plot_gat_diagonal_scores gatShortRow = .error .indexError := by
  refine ⟨rfl, rfl, by norm_num [argminAbs, argminAbsAux, npAbs], by norm_num,
    rfl, rfl, ?_⟩
  norm_num [plot_gat_diagonal_scores, gatShortRow, diagLoopFrom, cellScore, scanSeq,
    argminAbs, argminAbsAux, npAbs, bind, Except.bind, pure, Except.pure,
    List.replicate, List.set]
  rfl
